import Mathlib

/-!
Verification of the transaction-cache (TxManager) contract and of the
watcher AVR-export utility of the MobileCoin repository.

The TxManager implementation is visible only through its trait
(`consensus/service/src/tx_manager/tx_manager_trait.rs`); the cache model
below is therefore built from the specification's component design
(cache store, combiner, expiry sweeper, bulk lookup).  The AVR-export
model is a direct embedding of `watcher/src/bin/avr_export.rs`; Rust
panics are embedded as `Except.error`.
-/

namespace TxManager

/-- Transaction digests; a content-derived digest of the ciphertext bytes. -/
abbrev TxHash := Nat

/-- Modelled from the spec: enclave-produced transaction context.  It carries
the validated ciphertext bytes, the membership proofs for the declared
inputs, the declared spendable inputs and the tombstone block height. -/
structure TxContext where
  encryptedTx : List Nat
  membershipProofs : List Nat
  inputs : List Nat
  tombstoneBlock : Nat
deriving DecidableEq, Repr

/-- Modelled from the spec: a cache entry, keyed by the digest of its
ciphertext, owning the ciphertext, its membership proofs, its declared
inputs and its tombstone block height. -/
structure CacheEntry where
  encryptedTx : List Nat
  membershipProofs : List Nat
  inputs : List Nat
  tombstoneBlock : Nat
deriving DecidableEq, Repr

/-- Modelled from the spec: error taxonomy of the cache manager. -/
inductive TxManagerError where
  | NotFound
  | EnclaveError
  | ValidationFailed
  | LedgerUnavailable
deriving DecidableEq, Repr

/-- Modelled from the spec: the canonical content-derived digest of the
encrypted transaction bytes (deterministic function of the bytes alone;
two bit-identical ciphertexts always hash identically). -/
def txHash (bytes : List Nat) : TxHash :=
  bytes.foldl (fun a b => (a * 257 + b % 256 + 1) % 2 ^ 64) 1

/-- The cache store: an association list from digest to entry. -/
abbrev Cache := List (TxHash × CacheEntry)

/-- Look up the entry stored under the given digest. -/
def lookupTx (c : Cache) (h : TxHash) : Option CacheEntry :=
  (c.find? (fun p => decide (p.1 = h))).map (fun p => p.2)

/-- Modelled from the spec: O(1) membership check of the cache store. -/
def contains (c : Cache) (h : TxHash) : Bool :=
  (lookupTx c h).isSome

/-- Modelled from the spec: current entry count of the cache store. -/
def num_entries (c : Cache) : Nat :=
  c.length

/-- Modelled from the spec: `insert` computes the canonical digest of the
context's ciphertext; if an entry with that digest exists it returns it
unchanged (no-op), otherwise it creates and stores a new entry. -/
def insert (c : Cache) (ctx : TxContext) : TxHash × Cache :=
  if contains c (txHash ctx.encryptedTx) then (txHash ctx.encryptedTx, c)
  else (txHash ctx.encryptedTx,
        (txHash ctx.encryptedTx,
         ⟨ctx.encryptedTx, ctx.membershipProofs, ctx.inputs, ctx.tombstoneBlock⟩) :: c)

/-- Modelled from the spec: `remove_expired(b)` removes every entry whose
`tombstone_block` is at most `b` and returns exactly the removed hashes
together with the new cache state. -/
def remove_expired (c : Cache) (b : Nat) : List TxHash × Cache :=
  ((c.filter (fun p => decide (p.2.tombstoneBlock ≤ b))).map (fun p => p.1),
   c.filter (fun p => decide (b < p.2.tombstoneBlock)))

/-- Modelled from the spec: `get_encrypted_tx` is a direct optional
accessor for the cached ciphertext. -/
def get_encrypted_tx (c : Cache) (h : TxHash) : Option (List Nat) :=
  (lookupTx c h).map (fun e => e.encryptedTx)

/-- Modelled from the spec: two cached transactions conflict when they
declare the same spendable input. -/
def conflictsB (c : Cache) (h g : TxHash) : Bool :=
  decide (h ≠ g) &&
    match lookupTx c h, lookupTx c g with
    | some e1, some e2 => e1.inputs.any (fun i => e2.inputs.contains i)
    | _, _ => false

/-- Saturate `acc` under the conflict relation inside `present`
(fuel-bounded closure; `present.length` steps always suffice). -/
def expand (c : Cache) (present : List TxHash) : Nat → List TxHash → List TxHash
  | 0, acc => acc
  | n + 1, acc =>
    let next := present.filter (fun h => !acc.contains h && acc.any (fun g => conflictsB c g h))
    if next.isEmpty then acc else expand c present n (acc ++ next)

/-- The conflict group of a hash: its connected component in the conflict
graph restricted to `present`. -/
def conflictGroup (c : Cache) (present : List TxHash) (h : TxHash) : List TxHash :=
  expand c present present.length [h]

/-- Modelled from the spec: `combine` deduplicates the input, silently
drops hashes absent from the cache, partitions the survivors into
conflict groups, retains the lowest digest of each group and emits the
result in ascending digest order. -/
def combineList (c : Cache) (hashes : List TxHash) : List TxHash :=
  let present := (hashes.dedup).filter (fun h => contains c h)
  let sorted := List.insertionSort (· ≤ ·) present
  sorted.filter (fun h => (conflictGroup c sorted h).all (fun g => decide (h ≤ g)))

/-- Modelled from the spec: the `combine` trait entry point never errors
on conflicting or missing transactions. -/
def combine (c : Cache) (hashes : List TxHash) : Except TxManagerError (List TxHash) :=
  Except.ok (combineList c hashes)

/-- Modelled from the spec: strict all-or-nothing batch fetch of
well-formed encrypted transactions and membership proofs, in the order of
the requested hashes; any missing hash fails the whole call with
`NotFound`. -/
def tx_hashes_to_well_formed_encrypted_txs_and_proofs (c : Cache) :
    List TxHash → Except TxManagerError (List (List Nat × List Nat))
  | [] => Except.ok []
  | h :: rest =>
    match lookupTx c h with
    | none => Except.error TxManagerError.NotFound
    | some e =>
      match tx_hashes_to_well_formed_encrypted_txs_and_proofs c rest with
      | Except.error err => Except.error err
      | Except.ok tail => Except.ok ((e.encryptedTx, e.membershipProofs) :: tail)

/-- The (ciphertext, proofs) pair a successful bulk lookup yields for one
cached hash. -/
def extractPair (c : Cache) (h : TxHash) : List Nat × List Nat :=
  match lookupTx c h with
  | some e => (e.encryptedTx, e.membershipProofs)
  | none => ([], [])

end TxManager

namespace AvrExport

/-- Opaque attestation verification report. -/
abbrev VerificationReport := Nat

/-- Opaque block-signature signer key. -/
abbrev Ed25519Public := Nat

/-- Node identifier extracted by `create_responder_id`. -/
abbrev ResponderId := String

/-- A URL, exposing the pieces `avr_export.rs` inspects: its scheme, its
path segments (`none` models a cannot-be-a-base URL, where Rust's
`Url::path_segments` returns `None`), and its full string rendering. -/
structure Url where
  scheme : String
  pathSegments : Option (List String)
  full : String
deriving DecidableEq, Repr

/-- Outcome of `WatcherDB::get_block_data` followed by
`block_data.signature().map(|sig| *sig.signer())`: a block with an
optional signature, a `NotFound` error, or any other database error. -/
inductive BlockQuery where
  | ok (signer : Option Ed25519Public)
  | notFound
  | err (msg : String)

/-- The watcher database as `avr_export.rs` reads it: the last synced
block index per transaction source URL, the per-block signer query, and
the verification-report map per signer (a map from source URL to the
list of optional reports stored for that signer and URL). -/
structure WatcherDB where
  lastSyncedBlocks : List (Url × Option Nat)
  blockData : Url → Nat → BlockQuery
  reportsForSigner : Ed25519Public → Except String (List (Url × List (Option VerificationReport)))

/-- Look up the report list stored for one URL in a signer's report map. -/
def mapGet (rs : List (Url × List (Option VerificationReport))) (u : Url) :
    Option (List (Option VerificationReport)) :=
  (rs.find? (fun p => decide (p.1 = u))).map (fun p => p.2)

/-- One record of the exported AVR history: responder id, start height,
end height and optional report, as built by `AvrConfigRecord::new`. -/
structure AvrConfigRecord where
  responderId : ResponderId
  startHeight : Nat
  endHeight : Nat
  avr : Option VerificationReport
deriving DecidableEq, Repr

/-- The exported configuration, as built by `AvrConfig::new`. -/
structure AvrConfig where
  history : List AvrConfigRecord
deriving DecidableEq, Repr

/-- Rust's `DoubleEndedIterator::nth_back n`: the element `n` places from
the end of the list. -/
def nthBack (l : List String) (n : Nat) : Option String :=
  l.reverse[n]?

/-- `create_responder_id` from `avr_export.rs`: for an `https` URL it
unwraps the path segments and the second-to-last segment (panicking, here
`Except.error`, when either unwrap fails); for any other URL it returns
the full URL string. -/
def create_responder_id (u : Url) : Except String ResponderId :=
  if u.scheme = "https" then
    match u.pathSegments with
    | none => Except.error "create_responder_id: unwrap of path_segments failed"
    | some segs =>
      match nthBack segs 1 with
      | none => Except.error "create_responder_id: unwrap of nth_back failed"
      | some s => Except.ok s
  else Except.ok u.full

/-- `fetch_avr` from `avr_export.rs`: no signer yields no report; a failed
report query panics; a signer whose report map holds more than one URL, or
more than one report for the requested URL, panics ("multiple AVRs found");
otherwise the unique optional report (if any) is returned. -/
def fetch_avr (db : WatcherDB) (tx_src_url : Url) (signer : Option Ed25519Public) :
    Except String (Option VerificationReport) :=
  match signer with
  | none => Except.ok none
  | some s =>
    match db.reportsForSigner s with
    | Except.error e => Except.error ("Could not get verification reports for signer: " ++ e)
    | Except.ok reports =>
      match reports.length with
      | 0 => Except.ok none
      | 1 =>
        match mapGet reports tx_src_url with
        | some rs =>
          match rs.length with
          | 0 => Except.ok none
          | 1 => Except.ok (rs.getD 0 none)
          | _ + 2 => Except.error "fatal: multiple AVRs found for signing key"
        | none => Except.ok none
      | _ + 2 => Except.error "fatal: multiple AVRs found for signing key"

/-- Per-URL scan state of the reconstruction loop in `main`. -/
structure ScanState where
  records : List AvrConfigRecord
  curStart : Nat
  curEnd : Nat
  curSigner : Option Ed25519Public
  curAvr : Option VerificationReport

/-- One iteration of the block loop in `main`: fetch the block's signer
(treating `NotFound` as no signer and panicking on other errors), extend
the current run when the signer — or, failing that, the fetched AVR —
matches, and otherwise push a record for the previous run and start a new
one at this block. -/
def processBlock (db : WatcherDB) (url : Url) (st : ScanState) (blockIndex : Nat) :
    Except String ScanState :=
  match (match db.blockData url blockIndex with
         | BlockQuery.ok s => Except.ok s
         | BlockQuery.notFound => Except.ok none
         | BlockQuery.err m => Except.error ("Failed getting block: " ++ m)) with
  | Except.error m => Except.error m
  | Except.ok signer =>
    if signer = st.curSigner then
      Except.ok { st with curEnd := st.curEnd + 1 }
    else
      match fetch_avr db url signer with
      | Except.error m => Except.error m
      | Except.ok avrForSigner =>
        if avrForSigner = st.curAvr then
          Except.ok { st with curEnd := st.curEnd + 1, curSigner := signer }
        else
          match create_responder_id url with
          | Except.error m => Except.error m
          | Except.ok rid =>
            Except.ok { records := st.records ++ [⟨rid, st.curStart, st.curEnd, st.curAvr⟩],
                        curStart := blockIndex, curEnd := blockIndex,
                        curSigner := signer, curAvr := avrForSigner }

/-- The per-URL block loop of `main`: scan block indices
`0 .. maxBlockCount - 1`, starting from fresh per-URL state and the
records accumulated so far. -/
def scanUrl (db : WatcherDB) (url : Url) (maxBlockCount : Nat)
    (recs : List AvrConfigRecord) : Except String (List AvrConfigRecord) :=
  Except.map (fun st => st.records)
    ((List.range maxBlockCount).foldlM (processBlock db url)
      { records := recs, curStart := 0, curEnd := 0, curSigner := none, curAvr := none })

/-- The record-reconstruction pass of `main` over every source URL, where
`max_block_count = max_block_index.map_or_else(|| 0, |idx| idx + 1)`. -/
def buildRecords (db : WatcherDB) : Except String (List AvrConfigRecord) :=
  db.lastSyncedBlocks.foldlM
    (fun recs p =>
      scanUrl db p.1 (match p.2 with | none => 0 | some idx => idx + 1) recs)
    []

/-- The output phase of `main`, parameterised by the two serializers: with
no records it only prints a console message and writes nothing; otherwise
it writes the TOML then the JSON serialization of the same `AvrConfig`
value, each as one whole file.  The result pairs the written files
(path, contents) with the console lines. -/
def main (tomlSer jsonSer : AvrConfig → String) (db : WatcherDB) :
    Except String (List (String × String) × List String) :=
  match buildRecords db with
  | Except.error m => Except.error m
  | Except.ok recs =>
    if recs.isEmpty then
      Except.ok ([], ["No AVR history found to export in WatcherDB"])
    else
      Except.ok ([("avr_history.toml", tomlSer ⟨recs⟩),
                  ("avr_history.json", jsonSer ⟨recs⟩)], [])

end AvrExport

namespace TxManager

/-- Concrete cache entry used by the evaluation witnesses. -/
def exEntryA : CacheEntry := ⟨[1, 2, 3], [10], [100], 5⟩

/-- Concrete cache entry used by the evaluation witnesses. -/
def exEntryB : CacheEntry := ⟨[4, 5], [20], [100, 101], 50⟩

/-- Concrete two-entry cache used by the evaluation witnesses. -/
def exCache : Cache := [(1, exEntryA), (2, exEntryB)]

/-- Concrete transaction context used by the evaluation witnesses. -/
def exCtx : TxContext := ⟨[9, 9], [1], [7], 30⟩

end TxManager

namespace AvrExport

/-- A non-https source URL used by the evaluation witnesses. -/
def exUrl : Url := ⟨"file", some ["u"], "u"⟩

/-- An https URL with three path segments, used by the evaluation
witnesses. -/
def exUrlHttps : Url := ⟨"https", some ["a", "b", "c"], "https-full"⟩

/-- A watcher database with one source URL, two synced blocks both signed
by signer 1, and one report on file for that signer. -/
def exAvrDb : WatcherDB :=
  { lastSyncedBlocks := [(exUrl, some 1)]
    blockData := fun _ _ => BlockQuery.ok (some 1)
    reportsForSigner := fun _ => Except.ok [(exUrl, [some 7])] }

/-- A watcher database whose signer 1 has two reports on file for the same
source URL. -/
def exBadDb : WatcherDB :=
  { lastSyncedBlocks := []
    blockData := fun _ _ => BlockQuery.notFound
    reportsForSigner := fun _ => Except.ok [(exUrl, [some 7, some 8])] }

/-- A watcher database with no synced sources at all. -/
def exEmptyDb : WatcherDB :=
  { lastSyncedBlocks := []
    blockData := fun _ _ => BlockQuery.notFound
    reportsForSigner := fun _ => Except.ok [] }

/-- Serializer stand-in used by the evaluation witnesses. -/
def exToml : AvrConfig → String := fun cfg => "toml-" ++ toString cfg.history.length

/-- Serializer stand-in used by the evaluation witnesses. -/
def exJson : AvrConfig → String := fun cfg => "json-" ++ toString cfg.history.length

end AvrExport

namespace TxManager

/-- A hash is returned by `remove_expired c b` exactly when it keys a cache
entry whose tombstone is at most `b`. -/
lemma mem_remove_expired_fst {c : Cache} {b : Nat} {h : TxHash} :
    h ∈ (remove_expired c b).1 ↔ ∃ e, (h, e) ∈ c ∧ e.tombstoneBlock ≤ b := by
  constructor
  · intro hmem
    rw [remove_expired, List.mem_map] at hmem
    obtain ⟨p, hp, rfl⟩ := hmem
    rw [List.mem_filter] at hp
    exact ⟨p.2, by simpa using hp.1, by simpa using hp.2⟩
  · rintro ⟨e, hm, ht⟩
    rw [remove_expired, List.mem_map]
    exact ⟨(h, e), List.mem_filter.mpr ⟨hm, by simpa using ht⟩, rfl⟩

/-- The first component of `insert` is always the canonical digest. -/
lemma insert_fst (c : Cache) (ctx : TxContext) :
    (insert c ctx).1 = txHash ctx.encryptedTx := by
  simp only [insert]
  split <;> rfl

/-- After inserting a context, its digest is in the cache. -/
lemma insert_mem (c : Cache) (ctx : TxContext) :
    contains (insert c ctx).2 (txHash ctx.encryptedTx) = true := by
  by_cases hc : contains c (txHash ctx.encryptedTx)
  · simp [insert, hc]
  · have hcf : contains c (txHash ctx.encryptedTx) = false := by
      simpa using hc
    have hstep : (insert c ctx).2 =
        (txHash ctx.encryptedTx,
         (⟨ctx.encryptedTx, ctx.membershipProofs, ctx.inputs, ctx.tombstoneBlock⟩ : CacheEntry)) :: c := by
      simp [insert, hcf]
    rw [hstep, contains, lookupTx, List.find?_cons_of_pos _ (by simp)]
    rfl

/-- Inserting a context whose digest is already cached is a no-op. -/
lemma insert_of_contains (c : Cache) (ctx : TxContext)
    (h : contains c (txHash ctx.encryptedTx) = true) :
    insert c ctx = (txHash ctx.encryptedTx, c) := by
  simp [insert, h]

/-- C4: insert is idempotent — re-inserting the same context returns the
same hash, the identical cache state, and an unchanged entry count. -/
theorem insert_idempotent (c : Cache) (ctx : TxContext) :
    (insert (insert c ctx).2 ctx).1 = (insert c ctx).1 ∧
    (insert (insert c ctx).2 ctx).2 = (insert c ctx).2 ∧
    num_entries (insert (insert c ctx).2 ctx).2 = num_entries (insert c ctx).2 := by
  have hsec : insert (insert c ctx).2 ctx = (txHash ctx.encryptedTx, (insert c ctx).2) :=
    insert_of_contains _ ctx (insert_mem c ctx)
  rw [hsec, insert_fst]
  exact ⟨rfl, rfl, rfl⟩

/-- C8: `get_encrypted_tx` returns the cached ciphertext when the hash is
present and nothing when it is absent. -/
theorem get_encrypted_tx_spec (c : Cache) (h : TxHash) :
    (∀ e, lookupTx c h = some e → get_encrypted_tx c h = some e.encryptedTx) ∧
    (lookupTx c h = none → get_encrypted_tx c h = none) := by
  constructor
  · intro e he
    simp [get_encrypted_tx, he]
  · intro he
    simp [get_encrypted_tx, he]

/-- Evaluation of `get_encrypted_tx_spec` on the concrete cache. -/
theorem get_encrypted_tx_witness :
    get_encrypted_tx exCache 1 = some [1, 2, 3] ∧ get_encrypted_tx exCache 99 = none :=
  ⟨by simpa using (get_encrypted_tx_spec exCache 1).1 exEntryA rfl,
   (get_encrypted_tx_spec exCache 99).2 rfl⟩

/-- C2: `remove_expired b` returns exactly the hashes with tombstone at
most `b`, keeps exactly the entries with tombstone above `b`, returns the
empty set on an immediately subsequent call with the same or a lower
block index, and removes monotonically more as `b` grows. -/
theorem remove_expired_spec (c : Cache) (b : Nat) :
    (∀ h, h ∈ (remove_expired c b).1 ↔ ∃ e, (h, e) ∈ c ∧ e.tombstoneBlock ≤ b) ∧
    (∀ p : TxHash × CacheEntry, p ∈ (remove_expired c b).2 ↔ p ∈ c ∧ b < p.2.tombstoneBlock) ∧
    (∀ b', b' ≤ b → (remove_expired (remove_expired c b).2 b').1 = []) ∧
    (∀ b' h, b ≤ b' → h ∈ (remove_expired c b).1 → h ∈ (remove_expired c b').1) := by
  refine ⟨fun h => mem_remove_expired_fst, ?_, ?_, ?_⟩
  · intro p
    rw [remove_expired, List.mem_filter]
    simp
  · intro b' hb'
    have hnil : List.filter (fun p => decide (p.2.tombstoneBlock ≤ b')) (remove_expired c b).2 = [] := by
      apply List.filter_eq_nil_iff.mpr
      intro p hp
      rw [remove_expired, List.mem_filter] at hp
      have : b < p.2.tombstoneBlock := by simpa using hp.2
      simp only [decide_eq_true_eq]
      omega
    rw [remove_expired, hnil]
    rfl
  · intro b' h hb hmem
    obtain ⟨e, hm, ht⟩ := mem_remove_expired_fst.mp hmem
    exact mem_remove_expired_fst.mpr ⟨e, hm, le_trans ht hb⟩

/-- Evaluation of `remove_expired_spec` on the concrete cache. -/
theorem remove_expired_witness :
    (1 : TxHash) ∈ (remove_expired exCache 10).1 ∧
    (remove_expired (remove_expired exCache 10).2 10).1 = [] ∧
    (1 : TxHash) ∈ (remove_expired exCache 60).1 := by
  have h := remove_expired_spec exCache 10
  have h1 : (1 : TxHash) ∈ (remove_expired exCache 10).1 :=
    (h.1 1).mpr ⟨exEntryA, by decide, by decide⟩
  exact ⟨h1, h.2.2.1 10 (le_refl 10), h.2.2.2 60 1 (by omega) h1⟩

/-- C3: the bulk lookup is all-or-nothing — when every requested hash is
cached it returns the (ciphertext, proofs) pairs in request order, and
when any hash is absent it fails with `NotFound`. -/
theorem bulk_lookup_spec (c : Cache) (hashes : List TxHash) :
    ((∀ h ∈ hashes, contains c h = true) →
      tx_hashes_to_well_formed_encrypted_txs_and_proofs c hashes =
        Except.ok (hashes.map (extractPair c))) ∧
    ((∃ h ∈ hashes, contains c h = false) →
      tx_hashes_to_well_formed_encrypted_txs_and_proofs c hashes =
        Except.error TxManagerError.NotFound) := by
  induction hashes with
  | nil =>
    refine ⟨fun _ => rfl, ?_⟩
    rintro ⟨h, hm, _⟩
    cases hm
  | cons a rest ih =>
    constructor
    · intro hall
      have ha := hall a (by simp)
      obtain ⟨e, he⟩ : ∃ e, lookupTx c a = some e := by
        simpa [contains, Option.isSome_iff_exists] using ha
      have hrest := ih.1 (fun x hx => hall x (by simp [hx]))
      simp [tx_hashes_to_well_formed_encrypted_txs_and_proofs, he, hrest, extractPair]
    · rintro ⟨h, hm, hf⟩
      rcases List.mem_cons.mp hm with rfl | hm'
      · have hl : lookupTx c h = none := by
          cases hval : lookupTx c h with
          | none => rfl
          | some e => simp [contains, hval] at hf
        simp [tx_hashes_to_well_formed_encrypted_txs_and_proofs, hl]
      · cases hl : lookupTx c a with
        | none => simp [tx_hashes_to_well_formed_encrypted_txs_and_proofs, hl]
        | some e =>
          have hrest := ih.2 ⟨h, hm', hf⟩
          simp [tx_hashes_to_well_formed_encrypted_txs_and_proofs, hl, hrest]

/-- Evaluation of `bulk_lookup_spec` on the concrete cache. -/
theorem bulk_lookup_witness :
    tx_hashes_to_well_formed_encrypted_txs_and_proofs exCache [1, 2] =
      Except.ok [([1, 2, 3], [10]), ([4, 5], [20])] ∧
    tx_hashes_to_well_formed_encrypted_txs_and_proofs exCache [1, 99] =
      Except.error TxManagerError.NotFound := by
  have h := bulk_lookup_spec exCache [1, 2]
  have h2 := bulk_lookup_spec exCache [1, 99]
  exact ⟨by simpa using h.1 (by decide), h2.2 ⟨99, by simp, rfl⟩⟩

/-- C1: `combine` is order-independent and deterministic — any permutation
of the input hashes against the same cache yields the identical output —
hashes absent from the cache are silently excluded from the output, and
the call never returns an error. -/
theorem combine_spec (c : Cache) (l1 l2 : List TxHash) (hp : l1.Perm l2) :
    combine c l1 = combine c l2 ∧
    (∀ x, lookupTx c x = none → x ∉ combineList c l1) ∧
    (∃ out, combine c l1 = Except.ok out) := by
  refine ⟨?_, ?_, ⟨combineList c l1, rfl⟩⟩
  · have hfil : (l1.dedup.filter (fun h => contains c h)).Perm
        (l2.dedup.filter (fun h => contains c h)) := (hp.dedup).filter _
    have hsort : List.insertionSort (· ≤ ·) (l1.dedup.filter (fun h => contains c h)) =
        List.insertionSort (· ≤ ·) (l2.dedup.filter (fun h => contains c h)) :=
      List.eq_of_perm_of_sorted
        ((List.perm_insertionSort _ _).trans (hfil.trans (List.perm_insertionSort _ _).symm))
        (List.sorted_insertionSort _ _) (List.sorted_insertionSort _ _)
    simp only [combine, combineList]
    rw [hsort]
  · intro x hx hmem
    simp only [combineList] at hmem
    have hs := (List.mem_filter.mp hmem).1
    have hpres := (List.perm_insertionSort (· ≤ ·) _).mem_iff.mp hs
    have hcont := (List.mem_filter.mp hpres).2
    rw [contains, hx] at hcont
    cases hcont

/-- Evaluation of `combine_spec` on the concrete cache. -/
theorem combine_witness :
    combine exCache [2, 1, 2] = combine exCache [1, 2, 2] ∧
    (99 : TxHash) ∉ combineList exCache [2, 1, 2] := by
  have h := combine_spec exCache [2, 1, 2] [1, 2, 2] (by decide)
  exact ⟨h.1, h.2.1 99 rfl⟩

end TxManager

namespace AvrExport

/-- C5: on a watcher database with one source URL and two synced blocks,
both signed by the same signer that has one report on file, the export
loop emits only the degenerate record with start 0, end 0 and no report:
the final run of blocks is never flushed after the loop, so the emitted
ranges neither cover blocks 0..1 nor carry the signer's report. -/
theorem buildRecords_drops_final_run :
    buildRecords exAvrDb = Except.ok [⟨"u", 0, 0, none⟩] := by
  rfl

/-- C6: more than one attestation report for a single signer/source-URL
pair makes `fetch_avr` halt with a fatal error, and any such halt during
record reconstruction makes `main` fail before writing any output file. -/
theorem fetch_avr_multiple_reports_fatal (db : WatcherDB) (url : Url) (s : Ed25519Public)
    (rs : List (Url × List (Option VerificationReport)))
    (l : List (Option VerificationReport))
    (h1 : db.reportsForSigner s = Except.ok rs) (h2 : mapGet rs url = some l)
    (h3 : 2 ≤ l.length) :
    (∃ m, fetch_avr db url (some s) = Except.error m) ∧
    (∀ ts js db₂ m, buildRecords db₂ = Except.error m → main ts js db₂ = Except.error m) := by
  constructor
  · rcases l with _ | ⟨a, _ | ⟨b, ltail⟩⟩
    · simp at h3
    · simp at h3
    · rcases rs with _ | ⟨r, _ | ⟨r2, rtail⟩⟩
      · simp [mapGet] at h2
      · simp only [fetch_avr, h1]
        rw [h2]
        exact ⟨_, rfl⟩
      · simp only [fetch_avr, h1]
        exact ⟨_, rfl⟩
  · intro ts js db₂ m hm
    rw [main, hm]

/-- Evaluation of `fetch_avr_multiple_reports_fatal` on the concrete
database holding two reports for one signer/source-URL pair. -/
theorem fetch_avr_fatal_witness :
    ∃ m, fetch_avr exBadDb exUrl (some 1) = Except.error m :=
  (fetch_avr_multiple_reports_fatal exBadDb exUrl 1 [(exUrl, [some 7, some 8])]
    [some 7, some 8] rfl rfl (by decide)).1

/-- C7: with a non-empty record list, `main` writes exactly two whole
files — the TOML and then the JSON serialization of the one `AvrConfig`
value built from the records — and prints nothing else. -/
theorem main_writes_equivalent_files (ts js : AvrConfig → String) (db : WatcherDB)
    (recs : List AvrConfigRecord)
    (h1 : buildRecords db = Except.ok recs) (h2 : recs ≠ []) :
    main ts js db = Except.ok
      ([("avr_history.toml", ts ⟨recs⟩), ("avr_history.json", js ⟨recs⟩)], []) := by
  rw [main, h1]
  simp [List.isEmpty_iff, h2]

/-- Evaluation of `main_writes_equivalent_files` on the concrete
database and serializer stand-ins. -/
theorem main_writes_files_witness :
    main exToml exJson exAvrDb = Except.ok
      ([("avr_history.toml", "toml-1"), ("avr_history.json", "json-1")], []) := by
  have h := main_writes_equivalent_files exToml exJson exAvrDb [⟨"u", 0, 0, none⟩]
    rfl (by simp)
  exact h.trans rfl

/-- C9: `create_responder_id` returns the second-to-last path segment of
an https URL with at least two segments, halts on the `unwrap` for an
https URL with fewer than two segments (or no segment iterator at all),
and returns the full URL string for a non-https URL. -/
theorem create_responder_id_spec (u : Url) :
    (∀ segs, u.scheme = "https" → u.pathSegments = some segs →
      (2 ≤ segs.length →
        create_responder_id u = Except.ok (segs.getD (segs.length - 2) "")) ∧
      (segs.length < 2 → ∃ m, create_responder_id u = Except.error m)) ∧
    (u.scheme = "https" → u.pathSegments = none →
      ∃ m, create_responder_id u = Except.error m) ∧
    (u.scheme ≠ "https" → create_responder_id u = Except.ok u.full) := by
  refine ⟨?_, ?_, ?_⟩
  · intro segs hs hp
    constructor
    · intro hlen
      have hlt : 1 < segs.reverse.length := by
        rw [List.length_reverse]
        omega
      have hrev : segs.reverse[1]? = segs[segs.length - 2]? := by
        have := List.getElem?_reverse (l := segs) (i := 1) (by omega)
        simpa [show segs.length - 1 - 1 = segs.length - 2 by omega] using this
      have hlt2 : segs.length - 2 < segs.length := by omega
      have hval : segs[segs.length - 2]? = some (segs.getD (segs.length - 2) "") := by
        rw [List.getElem?_eq_getElem hlt2]
        rw [List.getD_eq_getElem?_getD, List.getElem?_eq_getElem hlt2]
        rfl
      have hnth : nthBack segs 1 = some (segs.getD (segs.length - 2) "") := by
        rw [nthBack, hrev, hval]
      simp only [create_responder_id, hs, hp, hnth, if_pos]
    · intro hlen
      have hnone : nthBack segs 1 = none := by
        rw [nthBack]
        apply List.getElem?_eq_none
        rw [List.length_reverse]
        omega
      simp only [create_responder_id, hs, hp, hnone, if_pos]
      exact ⟨_, rfl⟩
  · intro hs hp
    simp only [create_responder_id, hs, hp, if_pos]
    exact ⟨_, rfl⟩
  · intro hs
    simp only [create_responder_id, if_neg hs]

/-- Evaluation of `create_responder_id_spec` on concrete URLs. -/
theorem create_responder_id_witness :
    create_responder_id exUrlHttps = Except.ok "b" ∧
    create_responder_id exUrl = Except.ok "u" := by
  have h1 := ((create_responder_id_spec exUrlHttps).1 ["a", "b", "c"] rfl rfl).1 (by decide)
  have h2 := (create_responder_id_spec exUrl).2.2 (by decide)
  exact ⟨h1.trans rfl, h2.trans rfl⟩

/-- C10: when reconstruction yields no records, `main` writes no file at
all and only prints the console message. -/
theorem main_no_records_no_files (ts js : AvrConfig → String) (db : WatcherDB)
    (h : buildRecords db = Except.ok []) :
    main ts js db = Except.ok ([], ["No AVR history found to export in WatcherDB"]) := by
  rw [main, h]
  rfl

/-- Evaluation of `main_no_records_no_files` on the empty database. -/
theorem main_no_records_witness :
    main exToml exJson exEmptyDb =
      Except.ok ([], ["No AVR history found to export in WatcherDB"]) :=
  main_no_records_no_files exToml exJson exEmptyDb rfl

end AvrExport
